import Mathlib

/-!
# Verification of velocity-js against its specification

Shallow embedding of the velocity-js prefetch library (the page-side
script, given as `src/unnamed/part_000`, and the service worker
`src/velocity-worker.js`) together with proofs about the embedded
operations.

Conventions used throughout:
* JavaScript `Map` objects (which iterate in insertion order, and whose
  `set` replaces the value of an existing key in place) are embedded as
  association lists with `mapGet` / `mapSet` / `mapDelete` below.
* JavaScript numbers are embedded as `Int` where the program only ever
  produces integers (priorities, counters, timestamps) and as `ℚ` where
  fractional intermediate values occur (priority boosts, eviction
  scores).  All arithmetic appearing in the embedded code is exact in ℚ.
* `Array.prototype.sort` with a numeric comparator is a stable sort; it
  is embedded as a stable insertion sort.
* Asynchronous interleavings are embedded as event traces: JavaScript is
  single threaded, so each handler body that contains no `await` runs
  atomically; the event constructors below correspond exactly to those
  atomic sections of the source.
-/

namespace Velocity

/-- JS `Map.prototype.get` on an association list. -/
def mapGet {α : Type} : List (Nat × α) → Nat → Option α
  | [], _ => none
  | (k', v') :: rest, k => if k' == k then some v' else mapGet rest k

/-- JS `Map.prototype.set` on an association list: replaces the value of
an existing key in place (keeping its position), otherwise appends. -/
def mapSet {α : Type} : List (Nat × α) → Nat → α → List (Nat × α)
  | [], k, v => [(k, v)]
  | (k', v') :: rest, k, v =>
    if k' == k then (k, v) :: rest else (k', v') :: mapSet rest k v

/-- JS `Map.prototype.delete` on an association list. -/
def mapDelete {α : Type} : List (Nat × α) → Nat → List (Nat × α)
  | [], _ => []
  | (k', v') :: rest, k => if k' == k then rest else (k', v') :: mapDelete rest k

/-- One insertion step of a stable descending insertion sort keyed by an
integer.  The element being inserted stems from earlier in the original
list than everything already sorted, so it is placed in front of the
first element whose key is not larger. -/
def insertDescBy {α : Type} (key : α → Int) (x : α) : List α → List α
  | [] => [x]
  | y :: l => if key y ≤ key x then x :: y :: l else y :: insertDescBy key x l

/-- Stable sort, descending by an integer key: the embedding of
`Array.prototype.sort(([,a],[,b]) => b.priority - a.priority)`. -/
def sortDescBy {α : Type} (key : α → Int) : List α → List α
  | [] => []
  | x :: l => insertDescBy key x (sortDescBy key l)

/-- The four interaction triggers recognised by the page script
(`PRIORITY_WEIGHTS` keys and the `trigger` arguments of the event
handlers). -/
inductive Trigger
  | click
  | hover
  | touch
  | visible
deriving DecidableEq

/-- `DEFAULT_CONFIG.MAX_CONCURRENT_PREFETCH`. -/
def MAX_CONCURRENT_PREFETCH : Nat := 3

/-- An entry of `this.prefetchQueue` as built in `Velocity.processLink`:
`{ url, trigger, priority, timestamp: Date.now() }`. -/
structure QItem where
  url : Nat
  trigger : Trigger
  priority : Int
  timestamp : Nat
deriving DecidableEq

/-- An entry of `this.prefetchedUrls` as written in
`Velocity.prefetchResource`: `{ timestamp, trigger, priority, loadTime }`.
`loadTime` is a `performance.now()` float that no embedded operation ever
reads, so it is omitted. -/
structure PrefetchMeta where
  timestamp : Nat
  trigger : Trigger
  priority : Int
deriving DecidableEq

/-- One dispatched execution of `Velocity.prefetchResource`.  `id` is a
fresh identifier for the promise created at dispatch (whose `.finally`
handler performs the matching semaphore decrement).  `fetchTriggered`
records the outcome of the recency test at the top of `prefetchResource`
(`existing && Date.now() - existing.timestamp < 60000`), which runs
synchronously at dispatch, before the first `await` of the body. -/
structure ExecToken where
  id : Nat
  url : Nat
  trigger : Trigger
  priority : Int
  fetchTriggered : Bool
deriving DecidableEq

/-- The mutable fields of a `Velocity` instance that the admission
scheduler reads or writes, plus the ghost fields `active`, `nextTokenId`
and `dispatchLog` that track dispatched executions. -/
structure SchedState where
  prefetchQueue : List (Nat × QItem)
  prefetchedUrls : List (Nat × PrefetchMeta)
  prefetchSemaphore : Int
  active : List ExecToken
  nextTokenId : Nat
  dispatchLog : List ExecToken
deriving DecidableEq

/-- Constructor state: empty maps, semaphore `0`. -/
def initState : SchedState :=
  { prefetchQueue := []
    prefetchedUrls := []
    prefetchSemaphore := 0
    active := []
    nextTokenId := 0
    dispatchLog := [] }

/-- The recency test at the top of `Velocity.prefetchResource`
(lines 384–387): the fetch work is skipped when the url was served
within the last 60 seconds. -/
def fetchAllowed (prefetched : List (Nat × PrefetchMeta)) (url : Nat) (now : Nat) : Bool :=
  match mapGet prefetched url with
  | some existing => decide (¬ ((now : Int) - (existing.timestamp : Int) < 60000))
  | none => true

/-- The `for`-loop of `Velocity.processQueue` (lines 365–375): iterate
over the pre-sorted slice, re-checking the semaphore before every
dispatch (`break` when the ceiling is reached), incrementing the
semaphore, deleting the queue entry and starting `prefetchResource`. -/
def dispatchLoop (maxConc : Nat) (now : Nat) :
    List (Nat × QItem) → SchedState → SchedState
  | [], s => s
  | (url, item) :: rest, s =>
    if (maxConc : Int) ≤ s.prefetchSemaphore then s
    else
      let tok : ExecToken :=
        { id := s.nextTokenId
          url := url
          trigger := item.trigger
          priority := item.priority
          fetchTriggered := fetchAllowed s.prefetchedUrls url now }
      dispatchLoop maxConc now rest
        { prefetchQueue := mapDelete s.prefetchQueue url
          prefetchedUrls := s.prefetchedUrls
          prefetchSemaphore := s.prefetchSemaphore + 1
          active := s.active ++ [tok]
          nextTokenId := s.nextTokenId + 1
          dispatchLog := s.dispatchLog ++ [tok] }

/-- `Velocity.processQueue` (lines 356–376): early return when the
semaphore has reached `MAX_CONCURRENT_PREFETCH`; otherwise sort the
queue by priority (descending, stable) and run the dispatch loop on the
first `MAX_CONCURRENT_PREFETCH` entries. -/
def processQueue (maxConc : Nat) (now : Nat) (s : SchedState) : SchedState :=
  if (maxConc : Int) ≤ s.prefetchSemaphore then s
  else
    let sorted := sortDescBy (fun p => p.2.priority) s.prefetchQueue
    dispatchLoop maxConc now (sorted.take maxConc) s

/-- `Velocity.processLink` (lines 327–353).  `valid` is the verdict of
`isValidUrl` (which depends on the ambient `window.location`) and `url`
is already the result of `sanitizeUrl`.  A submission is dropped when
`prefetchedUrls` holds an entry of greater or equal priority; otherwise
it is written into the queue with `Map.set` and the queue is
processed. -/
def processLink (maxConc url : Nat) (trigger : Trigger) (priority : Int)
    (valid : Bool) (now : Nat) (s : SchedState) : SchedState :=
  if !valid then s
  else if (match mapGet s.prefetchedUrls url with
           | some existing => decide (priority ≤ existing.priority)
           | none => false) then s
  else
    processQueue maxConc now
      { s with prefetchQueue :=
          (mapSet s.prefetchQueue url ⟨url, trigger, priority, now⟩) }

/-- Settlement of one dispatched `prefetchResource` promise.  The
`.finally` handler installed at dispatch (line 372–374) decrements the
semaphore exactly once, whatever the body did: `prefetchResource`
catches every error itself and the inner fetches sit behind
`Promise.allSettled`.  On the non-short-circuited path the body stored
`{ timestamp: Date.now(), trigger, priority, ... }` into
`prefetchedUrls` just before finishing.  Settling a promise that is not
pending does nothing. -/
def completeExec (tid : Nat) (now : Nat) (s : SchedState) : SchedState :=
  match s.active.find? (fun t => t.id == tid) with
  | none => s
  | some tok =>
    { s with
        prefetchedUrls :=
          (if tok.fetchTriggered then
            mapSet s.prefetchedUrls tok.url ⟨now, tok.trigger, tok.priority⟩
          else s.prefetchedUrls)
        active := s.active.eraseP (fun t => t.id == tid)
        prefetchSemaphore := s.prefetchSemaphore - 1 }

/-- The atomic sections of the scheduler, in any interleaving: a
`processLink` call (from an event handler), the settlement of a
dispatched execution, or `resumePrefetching` (which re-runs
`processQueue`). -/
inductive Event
  | submit (url : Nat) (trigger : Trigger) (priority : Int) (valid : Bool) (now : Nat)
  | complete (tid : Nat) (now : Nat)
  | resume (now : Nat)
deriving DecidableEq

/-- One scheduler step. -/
def step (maxConc : Nat) (s : SchedState) : Event → SchedState
  | .submit url trig p valid now => processLink maxConc url trig p valid now s
  | .complete tid now => completeExec tid now s
  | .resume now => processQueue maxConc now s

/-- Run an event trace from the constructor state. -/
def run (maxConc : Nat) (events : List Event) : SchedState :=
  events.foldl (step maxConc) initState

end Velocity

namespace Velocity

/-- JavaScript `Math.round`: `⌊x + 1/2⌋` (halves round up). -/
def jsRound (q : ℚ) : Int := ⌊q + 1/2⌋

/-- `DEFAULT_CONFIG.PRIORITY_WEIGHTS` as a record (the config object may
be overridden by `userConfig`, so the weights are a parameter below). -/
structure PriorityWeights where
  click : ℚ
  hover : ℚ
  touch : ℚ
  visible : ℚ

/-- The default weight table `{ click: 10, hover: 5, touch: 7, visible: 3 }`. -/
def DEFAULT_PRIORITY_WEIGHTS : PriorityWeights := ⟨10, 5, 7, 3⟩

/-- `this.config.PRIORITY_WEIGHTS[trigger]`.  The `|| 1` fallback in the
source is dead for the four trigger values, which are exactly the keys
of the table. -/
def weightFor (w : PriorityWeights) : Trigger → ℚ
  | .click => w.click
  | .hover => w.hover
  | .touch => w.touch
  | .visible => w.visible

/-- The context signals `calculatePriority` reads from the link element:
`classList.contains('priority-high')`, `closest('nav')` and
`closest('.main-content')`. -/
structure LinkContext where
  highPriority : Bool
  inNav : Bool
  inMainContent : Bool
deriving DecidableEq

/-- An entry of `this.urlAnalytics` as read by `calculatePriority`
(only `visitCount` is used there; `lastVisit` is kept for the record
shape written by `updateAnalytics`). -/
structure UrlAnalytics where
  visitCount : Nat
  lastVisit : Nat
deriving DecidableEq

/-- `Velocity.calculatePriority` (lines 309–324): base weight from the
trigger table, `*2` for a `priority-high` class, `*1.5` inside `nav`,
`*1.3` inside `.main-content`, `*(1 + visitCount*0.1)` when analytics
for the url exist, and `Math.round` at the end.  All factors are exact
in ℚ. -/
def calculatePriority (weights : PriorityWeights) (link : LinkContext) (trigger : Trigger)
    (analytics : Option UrlAnalytics) : Int :=
  let p0 : ℚ := weightFor weights trigger
  let p1 : ℚ := if link.highPriority then p0 * 2 else p0
  let p2 : ℚ := if link.inNav then p1 * (3/2) else p1
  let p3 : ℚ := if link.inMainContent then p2 * (13/10) else p2
  let p4 : ℚ :=
    match analytics with
    | some a => p3 * (1 + (a.visitCount : ℚ) * (1/10))
    | none => p3
  jsRound p4

/-- A node of already-parsed markup, for the sanitizer model: text runs,
opening tags with their attribute list, and closing tags. -/
inductive HtmlTok
  | text (s : String)
  | openTag (tag : String) (attrs : List (String × String))
  | closeTag (tag : String)
deriving DecidableEq

/-- The `ALLOWED_TAGS` option passed to the sanitizer in
`Velocity.sanitizeHtml` (line 498). -/
def ALLOWED_TAGS : List String :=
  ["p", "br", "strong", "em", "u", "h1", "h2", "h3", "h4", "h5", "h6"]

/-- The `ALLOWED_ATTR` option passed to the sanitizer in
`Velocity.sanitizeHtml` (line 499). -/
def ALLOWED_ATTR : List String := ["class", "id"]

/-- Modelled from the spec: the primary allow-list path of
`Velocity.sanitizeHtml` is DOMPurify (an external library, not part of
this repository), configured with `ALLOWED_TAGS`, `ALLOWED_ATTR` and
`KEEP_CONTENT: true`.  Following the spec's words — "allow-list a small
fixed tag set … and a small attribute allow-list (class, id), stripping
everything else while preserving text content" — a token is kept when it
is a text run, or a tag in the allow-list (with its attributes filtered
to the attribute allow-list); disallowed tags are dropped while their
textual content stays. -/
def sanitizeTok : HtmlTok → Option HtmlTok
  | .text s => some (.text s)
  | .openTag tag attrs =>
    if tag ∈ ALLOWED_TAGS then
      some (.openTag tag (attrs.filter (fun a => decide (a.1 ∈ ALLOWED_ATTR))))
    else none
  | .closeTag tag =>
    if tag ∈ ALLOWED_TAGS then some (.closeTag tag) else none

/-- Modelled from the spec: the allow-list sanitization transform on a
whole document (see `sanitizeTok`). -/
def sanitizeHtml (doc : List HtmlTok) : List HtmlTok := doc.filterMap sanitizeTok

/-- How one `serviceWorkerPrefetch` call can fail: timer expiry (the
`'SW prefetch timeout'` rejection) or a failure response from the
worker. -/
inductive SWError
  | timeout
  | failed
deriving DecidableEq

/-- The outcome a settled `serviceWorkerPrefetch` promise carries:
`resolve()` or `reject(error)`. -/
inductive SWOutcome
  | resolved
  | rejected (e : SWError)
deriving DecidableEq

/-- The observable state of one `Velocity.serviceWorkerPrefetch` call
(lines 458–492): whether its promise has settled (and how), whether its
`handleResponse` listener is still registered on the broadcast channel,
and whether its timer is still pending. -/
structure SWPState where
  settled : Option SWOutcome
  listenerActive : Bool
  timeoutActive : Bool
deriving DecidableEq

/-- State right after the call: promise pending, listener registered,
timer armed. -/
def swpInit : SWPState := ⟨none, true, true⟩

/-- Promise settlement: only the first `resolve`/`reject` takes effect. -/
def settlePromise (cur : Option SWOutcome) (r : SWOutcome) : Option SWOutcome :=
  match cur with
  | some x => some x
  | none => some r

/-- What one `serviceWorkerPrefetch` call can observe: its timer firing,
or a broadcast message with some `messageId` and `success` flag. -/
inductive SWPEvent
  | timeoutFires
  | message (mid : Nat) (success : Bool)
deriving DecidableEq

/-- One event of a `serviceWorkerPrefetch` call with id `myId`.  The
timer callback (lines 466–468) only rejects the promise — it does not
remove the `handleResponse` listener.  `handleResponse` (lines 470–481)
acts only on a matching `messageId`: it clears the timer, removes
itself, and settles the promise according to `event.data.success`. -/
def swpStep (myId : Nat) (s : SWPState) : SWPEvent → SWPState
  | .timeoutFires =>
    if s.timeoutActive then
      { settled := settlePromise s.settled (SWOutcome.rejected SWError.timeout)
        listenerActive := s.listenerActive
        timeoutActive := false }
    else s
  | .message mid success =>
    if s.listenerActive && (mid == myId) then
      { settled := settlePromise s.settled
          (if success then SWOutcome.resolved else SWOutcome.rejected SWError.failed)
        listenerActive := false
        timeoutActive := false }
    else s

end Velocity

namespace VelocityWorker

/-!
Embedding of `src/velocity-worker.js`.  JavaScript string operations are
embedded at the character level so they evaluate inside the kernel.
-/

/-- ASCII uppercasing of one character, as `String.prototype.toUpperCase`
acts on the ASCII names occurring here. -/
def asciiUpperChar (c : Char) : Char :=
  if c.isLower then Char.ofNat (c.toNat - 32) else c

/-- `String.prototype.toUpperCase` on ASCII strings. -/
def asciiUpper (s : String) : String := String.mk (s.data.map asciiUpperChar)

/-- `String.prototype.split('-')` at the character level. -/
def splitOnChar (sep : Char) : List Char → List (List Char)
  | [] => [[]]
  | c :: rest =>
    let r := splitOnChar sep rest
    if c = sep then [] :: r
    else
      match r with
      | h :: t => (c :: h) :: t
      | [] => [[c]]

/-- `cacheName.split('-')`. -/
def jsSplitOnDash (s : String) : List String := (splitOnChar '-' s.data).map String.mk

/-- Occurrence test of `sub` inside a character list
(`String.prototype.includes`). -/
def containsSubChars (sub : List Char) : List Char → Bool
  | [] => sub.isEmpty
  | c :: rest => sub.isPrefixOf (c :: rest) || containsSubChars sub rest

/-- `s.includes(sub)`. -/
def strIncludes (s sub : String) : Bool := containsSubChars sub.data s.data

/-- `s.startsWith(p)`. -/
def strStartsWith (s p : String) : Bool := p.data.isPrefixOf s.data

/-- `parseInt` on the decimal strings this worker writes into its
timestamp header (always `Date.now().toString()`, so exact; a header
that is not a decimal numeral never arises from the embedded writer). -/
def jsParseInt (s : String) : Int := ((s.toNat?).getD 0 : Int)

/-- How a fetch promise rejects: `error.name === 'AbortError'` (the
timeout timer aborted the controller — the Timeout condition) versus any
other network error. -/
inductive FetchError
  | abortError
  | networkError
deriving DecidableEq

/-- Response bodies, abstracted: the three synthesized offline body
formats of `createOfflineResponse`, and opaque network payloads. -/
inductive RespBody
  | offlineHtml
  | offlineJson
  | offlineText
  | payload (data : Nat)
deriving DecidableEq

/-- The parts of a `Response` the worker reads or writes: HTTP status,
headers, body. -/
structure Response where
  status : Nat
  headers : List (String × String)
  body : RespBody
deriving DecidableEq

/-- The parts of a `Request` the worker reads: the `Accept` header (`""`
when absent) and the url's pathname. -/
structure Request where
  accept : String
  pathname : String
deriving DecidableEq

/-- `Headers.prototype.get`.  The Fetch API is case-insensitive in the
header name; the embedding always uses the canonical spellings, so exact
lookup is faithful. -/
def getHeader (headers : List (String × String)) (name : String) : Option String :=
  (headers.find? (fun h => h.1 == name)).map (fun h => h.2)

/-- `Headers.prototype.set`: replace or append. -/
def setHeader (headers : List (String × String)) (name value : String) :
    List (String × String) :=
  if headers.any (fun h => h.1 == name) then
    headers.map (fun h => if h.1 == name then (name, value) else h)
  else headers ++ [(name, value)]

/-- The observable outcome of one `fetchWithTimeout` call: the surfaced
result, how many fetch attempts ran, and the backoff waits (ms) taken
between attempts. -/
structure FetchRun where
  result : Except FetchError Response
  attemptsMade : Nat
  backoffsMs : List Nat

/-- `fetchWithTimeout` (lines 304–333): try the fetch (the oracle
`attempt` gives each attempt's outcome; index counts attempts); on an
error with `retries > 0` that is not an `AbortError`, wait 1000ms and
recurse with `retries - 1`; otherwise surface the error. -/
def fetchWithTimeout (attempt : Nat → Except FetchError Response) :
    Nat → Nat → FetchRun
  | 0, idx =>
    match attempt idx with
    | Except.ok r => ⟨Except.ok r, 1, []⟩
    | Except.error e => ⟨Except.error e, 1, []⟩
  | retries + 1, idx =>
    match attempt idx with
    | Except.ok r => ⟨Except.ok r, 1, []⟩
    | Except.error FetchError.abortError => ⟨Except.error FetchError.abortError, 1, []⟩
    | Except.error FetchError.networkError =>
      let rest := fetchWithTimeout attempt retries (idx + 1)
      ⟨rest.result, rest.attemptsMade + 1, 1000 :: rest.backoffsMs⟩

/-- `fetchWithTimeout` with the default `retries = 1` every call site
uses. -/
def fetchWithTimeoutDefault (attempt : Nat → Except FetchError Response) : FetchRun :=
  fetchWithTimeout attempt 1 0

/-- `createOfflineResponse` (lines 812–869): status 503 and
`Cache-Control: no-cache` in every branch; HTML body when the `Accept`
header includes `text/html`, JSON body when it includes
`application/json` or the path starts with `/api/`, plain text
otherwise. -/
def createOfflineResponse (req : Request) : Response :=
  if strIncludes req.accept "text/html" then
    ⟨503, [("Content-Type", "text/html"), ("Cache-Control", "no-cache")],
      RespBody.offlineHtml⟩
  else if strIncludes req.accept "application/json" || strStartsWith req.pathname "/api/" then
    ⟨503, [("Content-Type", "application/json"), ("Cache-Control", "no-cache")],
      RespBody.offlineJson⟩
  else
    ⟨503, [("Content-Type", "text/plain"), ("Cache-Control", "no-cache")],
      RespBody.offlineText⟩

/-- `shouldCacheResponse` (lines 736–749). -/
def shouldCacheResponse (req : Request) (resp : Response) (isAPI : Bool) : Bool :=
  if resp.status != 200 then false
  else if (match getHeader resp.headers "Cache-Control" with
           | some v => strIncludes v "no-store"
           | none => false) then false
  else if isAPI then
    strIncludes req.pathname "/public/" || strIncludes req.pathname "/config/"
      || strIncludes req.pathname "/static-data/"
  else true

/-- `isResourceStale` (lines 751–756): stale when the cache timestamp
header is missing or older than `maxAge` (1 hour at every call site). -/
def isResourceStale (resp : Response) (now : Nat) (maxAge : Nat) : Bool :=
  match getHeader resp.headers "X-VelocityCache-Timestamp" with
  | none => true
  | some ts => decide ((now : Int) - jsParseInt ts > (maxAge : Int))

/-- The header-stamping step of `safeCachePut` (lines 352–361): the
stored response carries the original status and body with the two cache
metadata headers set. -/
def enhanceResponse (resp : Response) (now : Nat) : Response :=
  { resp with headers :=
      (setHeader (setHeader resp.headers "X-VelocityCache-Timestamp" (toString now))
        "X-VelocityCache-Version" "1.0.0") }

/-- Ghost marker of which branch produced a strategy's response: the
network result, a cache hit, or a synthesized offline response. -/
inductive Origin
  | network
  | cache
  | synthesized
deriving DecidableEq

/-- What one strategy invocation produced: the returned response, its
provenance, and the `(request, response)` pairs it handed to
`safeCachePut`. -/
structure StrategyOutcome where
  response : Response
  origin : Origin
  writes : List (Request × Response)
deriving DecidableEq

/-- `networkFirstStrategy` (lines 230–267), as a function of the fetch
outcome and the cache lookup (both awaited oracles): on status 200
return the network response, writing through when `shouldCacheResponse`
allows; on non-200 fall back to a cache hit, else return the network
response; on fetch failure fall back to a cache hit, else synthesize the
offline response. -/
def networkFirstStrategy (req : Request) (isAPI : Bool)
    (fetchResult : Except FetchError Response) (cached : Option Response) :
    StrategyOutcome :=
  match fetchResult with
  | Except.ok r =>
    if r.status == 200 then
      { response := r, origin := Origin.network,
        writes := if shouldCacheResponse req r isAPI then [(req, r)] else [] }
    else
      match cached with
      | some c => { response := c, origin := Origin.cache, writes := [] }
      | none => { response := r, origin := Origin.network, writes := [] }
  | Except.error _ =>
    match cached with
    | some c => { response := c, origin := Origin.cache, writes := [] }
    | none =>
      { response := createOfflineResponse req, origin := Origin.synthesized, writes := [] }

/-- `cacheFirstStrategy` (lines 198–227): return a hit immediately,
refreshing in the background (a write on background status 200) when it
is stale; on a miss fetch, write through on status 200, and synthesize
the offline response on failure. -/
def cacheFirstStrategy (req : Request) (cached : Option Response) (now : Nat)
    (fetchResult : Except FetchError Response) (bgFetch : Except FetchError Response) :
    StrategyOutcome :=
  match cached with
  | some c =>
    { response := c, origin := Origin.cache,
      writes :=
        if isResourceStale c now 3600000 then
          match bgFetch with
          | Except.ok r => if r.status == 200 then [(req, r)] else []
          | Except.error _ => []
        else [] }
  | none =>
    match fetchResult with
    | Except.ok r =>
      { response := r, origin := Origin.network,
        writes := if r.status == 200 then [(req, r)] else [] }
    | Except.error _ =>
      { response := createOfflineResponse req, origin := Origin.synthesized, writes := [] }

/-- `staleWhileRevalidateStrategy` (lines 270–301): the revalidation
fetch always runs (writing on status 200); a cache hit is returned
immediately; otherwise the fetch result is awaited, with the offline
response synthesized on failure. -/
def staleWhileRevalidateStrategy (req : Request) (cached : Option Response)
    (fetchResult : Except FetchError Response) : StrategyOutcome :=
  let writes :=
    match fetchResult with
    | Except.ok r => if r.status == 200 then [(req, r)] else []
    | Except.error _ => []
  match cached with
  | some c => { response := c, origin := Origin.cache, writes := writes }
  | none =>
    match fetchResult with
    | Except.ok r => { response := r, origin := Origin.network, writes := writes }
    | Except.error _ =>
      { response := createOfflineResponse req, origin := Origin.synthesized,
        writes := writes }

/-- The cache writes of `executePrefetch` (lines 509–549): nothing when a
fresh cached copy exists, otherwise a write exactly on fetch status 200. -/
def executePrefetchWrites (req : Request) (cachedFresh : Bool)
    (fetchResult : Except FetchError Response) : List (Request × Response) :=
  if cachedFresh then []
  else
    match fetchResult with
    | Except.ok r => if r.status == 200 then [(req, r)] else []
    | Except.error _ => []

/-- An entry of the `cacheMetrics` map: `{ hits, lastAccess }` as read by
`calculateEvictionScore` (misses and other counters are not read
there). -/
structure CacheMetrics where
  hits : Nat
  lastAccess : Nat
deriving DecidableEq

/-- `calculateEvictionScore` (lines 418–425): hours since cached plus
minutes since last access minus ten times the hit count (lower score is
evicted first). -/
def calculateEvictionScore (metrics : CacheMetrics) (timestamp : Nat) (now : Nat) : ℚ :=
  let ageScore : ℚ := ((now : ℚ) - (timestamp : ℚ)) / (1000 * 60 * 60)
  let accessScore : ℚ := (metrics.hits : ℚ) * 10
  let recentAccessScore : ℚ := ((now : ℚ) - (metrics.lastAccess : ℚ)) / (1000 * 60)
  ageScore + recentAccessScore - accessScore

/-- One cached request of a partition, reduced to what
`manageCacheSize` reads: its url (the cache key) and the parsed
`X-VelocityCache-Timestamp` header (`0` when the header is absent). -/
structure CachedEntry where
  url : Nat
  timestamp : Nat
deriving DecidableEq

/-- `SW_CONFIG.MAX_CACHE_SIZES`, as the object lookup used by
`manageCacheSize` (an absent key yields `undefined`). -/
def MAX_CACHE_SIZES : String → Option Nat
  | "STATIC" => some 50
  | "DYNAMIC" => some 100
  | "PREFETCH" => some 200
  | "API" => some 30
  | _ => none

/-- The `SW_CONFIG.CACHE_NAMES` values. -/
def CACHE_NAMES : List String :=
  ["velocity-static-v1", "velocity-dynamic-v1", "velocity-prefetch-v1", "velocity-api-v1"]

/-- The capacity computation of `manageCacheSize` (line 379):
`MAX_CACHE_SIZES[cacheName.split('-').pop().toUpperCase()] || 50`. -/
def effectiveMaxSize (cacheName : String) : Nat :=
  (MAX_CACHE_SIZES (asciiUpper ((jsSplitOnDash cacheName).getLastD ""))).getD 50

/-- One insertion step of a stable ascending insertion sort on the ℚ
score (the embedding of `sort((a, b) => a.score - b.score)`). -/
def insertAscByScore {α : Type} (x : α × ℚ) : List (α × ℚ) → List (α × ℚ)
  | [] => [x]
  | y :: l => if x.2 ≤ y.2 then x :: y :: l else y :: insertAscByScore x l

/-- Stable ascending sort by score. -/
def sortAscByScore {α : Type} : List (α × ℚ) → List (α × ℚ)
  | [] => []
  | x :: l => insertAscByScore x (sortAscByScore l)

/-- `manageCacheSize` (lines 376–415): when the partition holds at least
`effectiveMaxSize` entries, score every entry (metrics default to
`{ hits: 0, lastAccess: 0 }`), sort ascending by score, and delete the
first `keys.length - maxSize + 5` of them (5 extra as buffer). -/
def manageCacheSize (entries : List CachedEntry) (cacheName : String)
    (metrics : Nat → Option CacheMetrics) (now : Nat) : List CachedEntry :=
  let maxSize := effectiveMaxSize cacheName
  if maxSize ≤ entries.length then
    let scored := entries.map (fun e =>
      (e, calculateEvictionScore ((metrics e.url).getD ⟨0, 0⟩) e.timestamp now))
    let sorted := sortAscByScore scored
    (sorted.drop (entries.length - maxSize + 5)).map Prod.fst
  else entries

/-- `Cache.prototype.put`: replaces the entry of the same key, otherwise
appends. -/
def cachePut (entries : List CachedEntry) (e : CachedEntry) : List CachedEntry :=
  if entries.any (fun x => x.url == e.url) then
    entries.map (fun x => if x.url == e.url then e else x)
  else entries ++ [e]

/-- `SW_CONFIG.PERFORMANCE_BUDGET`. -/
def PERFORMANCE_BUDGET : Nat := 50

/-- The partition-level view of `safeCachePut` (lines 336–373): skip
entirely over performance budget, otherwise run `manageCacheSize`
*before* inserting, then put the entry (stamped with the current
timestamp by `enhanceResponse`). -/
def safeCachePutEntries (perfCounter : Nat) (entries : List CachedEntry)
    (cacheName : String) (metrics : Nat → Option CacheMetrics) (now : Nat)
    (url : Nat) : List CachedEntry :=
  if PERFORMANCE_BUDGET ≤ perfCounter then entries
  else cachePut (manageCacheSize entries cacheName metrics now) ⟨url, now⟩

end VelocityWorker

namespace Velocity

/-- The scheduler invariant: the semaphore equals the number of active
executions and never exceeds the configured ceiling. -/
def GoodState (maxConc : Nat) (s : SchedState) : Prop :=
  s.prefetchSemaphore = (s.active.length : Int) ∧ s.prefetchSemaphore ≤ (maxConc : Int)

theorem dispatchLoop_goodState (maxConc now : Nat) (items : List (Nat × QItem)) :
    ∀ s : SchedState, GoodState maxConc s → GoodState maxConc (dispatchLoop maxConc now items s) := by
  induction items with
  | nil => exact fun s h => h
  | cons p rest ih =>
    intro s h
    obtain ⟨url, item⟩ := p
    simp only [dispatchLoop]
    split
    · exact h
    · next hlt =>
      apply ih
      obtain ⟨h1, _⟩ := h
      refine ⟨?_, ?_⟩
      · dsimp only
        simp only [List.length_append, List.length_cons, List.length_nil]
        push_cast
        omega
      · dsimp only
        omega

theorem processQueue_goodState (maxConc now : Nat) (s : SchedState)
    (h : GoodState maxConc s) : GoodState maxConc (processQueue maxConc now s) := by
  simp only [processQueue]
  split
  · exact h
  · exact dispatchLoop_goodState maxConc now _ s h

theorem processLink_goodState (maxConc url : Nat) (trigger : Trigger) (priority : Int)
    (valid : Bool) (now : Nat) (s : SchedState)
    (h : GoodState maxConc s) : GoodState maxConc (processLink maxConc url trigger priority valid now s) := by
  simp only [processLink]
  split
  · exact h
  · split
    · exact h
    · exact processQueue_goodState maxConc now _ h

theorem completeExec_goodState (tid now maxConc : Nat) (s : SchedState)
    (h : GoodState maxConc s) : GoodState maxConc (completeExec tid now s) := by
  unfold completeExec
  split
  · exact h
  · next tok hfind =>
    have hmem := List.mem_of_find?_eq_some hfind
    have hpos : 0 < s.active.length := List.length_pos_of_mem hmem
    have hp := List.find?_some hfind
    have hlen : (s.active.eraseP (fun t => t.id == tid)).length = s.active.length - 1 :=
      List.length_eraseP_of_mem hmem hp
    obtain ⟨h1, h2⟩ := h
    refine ⟨?_, ?_⟩
    · dsimp only
      rw [hlen]
      omega
    · dsimp only
      omega

theorem run_goodState (maxConc : Nat) (events : List Event) :
    GoodState maxConc (run maxConc events) := by
  suffices h : ∀ s, GoodState maxConc s → GoodState maxConc (events.foldl (step maxConc) s) by
    refine h initState ⟨by simp [initState], by simp [initState]⟩
  induction events with
  | nil => exact fun s h => h
  | cons e rest ih =>
    intro s h
    apply ih
    cases e with
    | submit url trig p valid now => exact processLink_goodState maxConc url trig p valid now s h
    | complete tid now => exact completeExec_goodState tid now maxConc s h
    | resume now => exact processQueue_goodState maxConc now s h

end Velocity

namespace Velocity

/-- C1: At every reachable state the number of concurrently active
prefetch executions dispatched by the admission scheduler is at most the
configured concurrency ceiling `MAX_CONCURRENT_PREFETCH` (default `3`),
for every sequence of submissions, completions and resumptions; and when
the semaphore is at (or above) the ceiling, a `processQueue` pass leaves
the state unchanged — it dispatches nothing. -/
theorem processQueue_concurrency_ceiling :
    MAX_CONCURRENT_PREFETCH = 3
    ∧ (∀ (maxConc : Nat) (events : List Event),
        ((run maxConc events).active.length : Int) ≤ (maxConc : Int)
        ∧ (run maxConc events).prefetchSemaphore ≤ (maxConc : Int))
    ∧ (∀ (maxConc now : Nat) (s : SchedState),
        (maxConc : Int) ≤ s.prefetchSemaphore → processQueue maxConc now s = s) := by
  refine ⟨rfl, ?_, ?_⟩
  · intro maxConc events
    obtain ⟨h1, h2⟩ := run_goodState maxConc events
    exact ⟨by rw [← h1]; exact h2, h2⟩
  · intro maxConc now s h
    simp only [processQueue, if_pos h]

/-- Witness for C1 at concrete inputs: a single burst of one submission
stays within the default ceiling, and a `processQueue` pass on a state
whose semaphore sits at the ceiling changes nothing. -/
theorem processQueue_concurrency_ceiling_witness :
    (((run 3 [Event.submit 1 Trigger.click 10 true 0]).active.length : Int) ≤ ((3 : Nat) : Int))
    ∧ processQueue 3 0 ⟨[], [], 3, [], 0, []⟩ = ⟨[], [], 3, [], 0, []⟩ :=
  ⟨(processQueue_concurrency_ceiling.2.1 3 [Event.submit 1 Trigger.click 10 true 0]).1,
   processQueue_concurrency_ceiling.2.2 3 0 ⟨[], [], 3, [], 0, []⟩ (by decide)⟩

/-- C2: the semaphore always equals the number of active executions
(each dispatch increments it exactly once and hands the execution its
`.finally` decrement), it is never negative, settling an active
execution decrements it by exactly one whatever the outcome was, and a
settlement that matches no active execution (e.g. a duplicate) changes
nothing — so no decrement ever happens without a matching increment. -/
theorem prefetch_semaphore_balanced :
    ∀ (maxConc : Nat) (events : List Event),
      (run maxConc events).prefetchSemaphore = ((run maxConc events).active.length : Int)
      ∧ 0 ≤ (run maxConc events).prefetchSemaphore
      ∧ (∀ tid now : Nat,
          ((run maxConc events).active.any (fun t => t.id == tid)) = true →
            (completeExec tid now (run maxConc events)).prefetchSemaphore
              = (run maxConc events).prefetchSemaphore - 1)
      ∧ (∀ tid now : Nat,
          ((run maxConc events).active.any (fun t => t.id == tid)) = false →
            completeExec tid now (run maxConc events) = run maxConc events) := by
  intro maxConc events
  obtain ⟨h1, _⟩ := run_goodState maxConc events
  refine ⟨h1, by rw [h1]; exact Int.natCast_nonneg _, ?_, ?_⟩
  · intro tid now hany
    obtain ⟨tok, hmem, hp⟩ := List.any_eq_true.mp hany
    cases hfind : (run maxConc events).active.find? (fun t => t.id == tid) with
    | none =>
      exact absurd hp (by simpa using List.find?_eq_none.mp hfind tok hmem)
    | some tok' =>
      unfold completeExec
      rw [hfind]
  · intro tid now hany
    have hfind : (run maxConc events).active.find? (fun t => t.id == tid) = none :=
      List.find?_eq_none.mpr (fun x hx => by
        have := List.any_eq_false.mp hany x hx
        simpa using this)
    unfold completeExec
    rw [hfind]

/-- Witness for C2 at a concrete trace: one submission dispatches token
`0`; settling it decrements the semaphore to `0`, and settling an
unknown token id is a no-op. -/
theorem prefetch_semaphore_balanced_witness :
    (completeExec 0 500 (run 3 [Event.submit 1 Trigger.click 10 true 0])).prefetchSemaphore
        = (run 3 [Event.submit 1 Trigger.click 10 true 0]).prefetchSemaphore - 1
    ∧ completeExec 7 500 (run 3 [Event.submit 1 Trigger.click 10 true 0])
        = run 3 [Event.submit 1 Trigger.click 10 true 0] :=
  ⟨(prefetch_semaphore_balanced 3 [Event.submit 1 Trigger.click 10 true 0]).2.2.1 0 500 (by decide),
   (prefetch_semaphore_balanced 3 [Event.submit 1 Trigger.click 10 true 0]).2.2.2 7 500 (by decide)⟩

end Velocity

namespace Velocity

/-- C3 counterexample: the lower-or-equal-priority discard in
`processLink` consults `prefetchedUrls` (urls whose prefetch already
ran), not the pending queue.  With the default ceiling `3` occupied by
urls `1`, `2`, `3`, a submission of url `10` at priority `10` waits in
the queue; a later submission of url `10` at the lower priority `5` is
not discarded — `prefetchQueue.set` overwrites the pending entry — so
after one completion frees a slot, url `10` is dispatched at priority
`5` and the priority-`10` submission is never dispatched at all. -/
theorem submit_dedup_counterexample :
    ((run 3
      [Event.submit 1 Trigger.hover 1 true 0,
       Event.submit 2 Trigger.hover 1 true 0,
       Event.submit 3 Trigger.hover 1 true 0,
       Event.submit 10 Trigger.click 10 true 0,
       Event.submit 10 Trigger.hover 5 true 0,
       Event.complete 0 1000,
       Event.submit 4 Trigger.hover 1 true 1000]).dispatchLog.any
        (fun t => t.url == 10 && t.priority == 5)) = true
    ∧ ((run 3
      [Event.submit 1 Trigger.hover 1 true 0,
       Event.submit 2 Trigger.hover 1 true 0,
       Event.submit 3 Trigger.hover 1 true 0,
       Event.submit 10 Trigger.click 10 true 0,
       Event.submit 10 Trigger.hover 5 true 0,
       Event.complete 0 1000,
       Event.submit 4 Trigger.hover 1 true 1000]).dispatchLog.any
        (fun t => t.url == 10 && t.priority == 10)) = false := by
  decide

end Velocity

namespace Velocity

theorem mapGet_mapSet_self {α : Type} (m : List (Nat × α)) (k : Nat) (v : α) :
    mapGet (mapSet m k v) k = some v := by
  induction m with
  | nil => simp [mapSet, mapGet]
  | cons p rest ih =>
    obtain ⟨k', v'⟩ := p
    by_cases h : k' == k
    · simp [mapSet, mapGet, h]
    · simp [mapSet, mapGet, h, ih]

theorem mem_keys_of_mapGet_some {α : Type} {m : List (Nat × α)} {u : Nat} {x : α} :
    mapGet m u = some x → u ∈ m.map Prod.fst := by
  induction m with
  | nil => simp [mapGet]
  | cons p rest ih =>
    obtain ⟨k', v'⟩ := p
    intro hget
    simp only [mapGet] at hget
    by_cases h : (k' == u) = true
    · have hk : k' = u := by simpa using h
      simp [hk]
    · rw [if_neg h] at hget
      simpa using Or.inr (ih hget)

theorem mapDelete_keys_sublist {α : Type} (m : List (Nat × α)) (k : Nat) :
    ((mapDelete m k).map Prod.fst).Sublist (m.map Prod.fst) := by
  induction m with
  | nil => simp [mapDelete]
  | cons p rest ih =>
    obtain ⟨k', v'⟩ := p
    simp only [mapDelete]
    by_cases h : (k' == k) = true
    · rw [if_pos h]
      exact List.sublist_cons_self _ _
    · rw [if_neg h]
      simp only [List.map_cons]
      exact List.Sublist.cons₂ _ ih

theorem mapGet_mapDelete_some {α : Type} {m : List (Nat × α)} {k u : Nat} {x : α}
    (hnd : (m.map Prod.fst).Nodup) :
    mapGet (mapDelete m k) u = some x → mapGet m u = some x := by
  induction m with
  | nil => simp [mapDelete]
  | cons p rest ih =>
    obtain ⟨k', v'⟩ := p
    intro hget
    have hnd' : (rest.map Prod.fst).Nodup := (List.nodup_cons.mp (by simpa using hnd)).2
    have hnotin : k' ∉ rest.map Prod.fst := (List.nodup_cons.mp (by simpa using hnd)).1
    simp only [mapDelete] at hget
    by_cases h : (k' == k) = true
    · rw [if_pos h] at hget
      simp only [mapGet]
      by_cases h2 : (k' == u) = true
      · exfalso
        have hu := mem_keys_of_mapGet_some hget
        rw [(by simpa using h2 : k' = u)] at hnotin
        exact hnotin hu
      · rw [if_neg h2]
        exact hget
    · rw [if_neg h] at hget
      simp only [mapGet] at hget ⊢
      by_cases h2 : (k' == u) = true
      · rwa [if_pos h2] at hget ⊢
      · rw [if_neg h2] at hget ⊢
        exact ih hnd' hget

theorem mem_keys_mapSet {α : Type} {m : List (Nat × α)} {k u : Nat} {v : α} :
    u ∈ (mapSet m k v).map Prod.fst → u ∈ m.map Prod.fst ∨ u = k := by
  induction m with
  | nil => simp [mapSet]
  | cons p rest ih =>
    obtain ⟨k', v'⟩ := p
    intro hmem
    simp only [mapSet] at hmem
    by_cases h : (k' == k) = true
    · rw [if_pos h] at hmem
      rcases (by simpa using hmem : u = k ∨ u ∈ rest.map Prod.fst) with h1 | h1
      · exact Or.inr h1
      · exact Or.inl (by simp [h1])
    · rw [if_neg h] at hmem
      rcases (by simpa using hmem : u = k' ∨ u ∈ (mapSet rest k v).map Prod.fst) with h1 | h1
      · exact Or.inl (by simp [h1])
      · rcases ih h1 with h2 | h2
        · exact Or.inl (by simp [h2])
        · exact Or.inr h2

theorem mapSet_keys_nodup {α : Type} {m : List (Nat × α)} (k : Nat) (v : α)
    (hnd : (m.map Prod.fst).Nodup) : ((mapSet m k v).map Prod.fst).Nodup := by
  induction m with
  | nil => simp [mapSet]
  | cons p rest ih =>
    obtain ⟨k', v'⟩ := p
    have hnd' : (rest.map Prod.fst).Nodup := (List.nodup_cons.mp (by simpa using hnd)).2
    have hnotin : k' ∉ rest.map Prod.fst := (List.nodup_cons.mp (by simpa using hnd)).1
    simp only [mapSet]
    by_cases h : (k' == k) = true
    · rw [if_pos h]
      simp only [List.map_cons]
      refine List.nodup_cons.mpr ⟨?_, hnd'⟩
      rw [← (by simpa using h : k' = k)]
      exact hnotin
    · rw [if_neg h]
      simp only [List.map_cons]
      refine List.nodup_cons.mpr ⟨?_, ih hnd'⟩
      intro hmem
      rcases mem_keys_mapSet hmem with h1 | h1
      · exact hnotin h1
      · exact (by simpa using h : ¬ k' = k) h1

theorem dispatchLoop_prefetchedUrls (maxConc now : Nat) (items : List (Nat × QItem)) :
    ∀ s : SchedState, (dispatchLoop maxConc now items s).prefetchedUrls = s.prefetchedUrls := by
  induction items with
  | nil => exact fun s => rfl
  | cons p rest ih =>
    intro s
    obtain ⟨url, item⟩ := p
    simp only [dispatchLoop]
    split
    · rfl
    · rw [ih]

theorem dispatchLoop_log_new (maxConc now : Nat) (items : List (Nat × QItem)) :
    ∀ (s : SchedState) (tok : ExecToken), tok ∈ (dispatchLoop maxConc now items s).dispatchLog →
      tok ∈ s.dispatchLog ∨ tok.fetchTriggered = fetchAllowed s.prefetchedUrls tok.url now := by
  induction items with
  | nil => exact fun s tok h => Or.inl h
  | cons p rest ih =>
    obtain ⟨url, item⟩ := p
    intro s tok h
    simp only [dispatchLoop] at h
    split at h
    · exact Or.inl h
    · rcases ih _ tok h with hin | hfa
      · rcases List.mem_append.mp hin with h1 | h2
        · exact Or.inl h1
        · have heq : tok =
              (⟨s.nextTokenId, url, item.trigger, item.priority,
                fetchAllowed s.prefetchedUrls url now⟩ : ExecToken) := by
            simpa using h2
          right
          rw [heq]
      · exact Or.inr hfa

theorem dispatchLoop_queue_get (maxConc now : Nat) (items : List (Nat × QItem)) :
    ∀ (s : SchedState) (u : Nat) (x : QItem),
      (s.prefetchQueue.map Prod.fst).Nodup →
      mapGet (dispatchLoop maxConc now items s).prefetchQueue u = some x →
      mapGet s.prefetchQueue u = some x := by
  induction items with
  | nil => exact fun s u x _ h => h
  | cons p rest ih =>
    obtain ⟨url, item⟩ := p
    intro s u x hnd h
    simp only [dispatchLoop] at h
    split at h
    · exact h
    · have hnd' : ((mapDelete s.prefetchQueue url).map Prod.fst).Nodup :=
        (mapDelete_keys_sublist s.prefetchQueue url).nodup hnd
      exact mapGet_mapDelete_some hnd (ih _ u x hnd' h)

end Velocity

namespace Velocity

/-- C3 (amended): the lower-or-equal-priority discard applies only to a
url that already has a *served* entry in `prefetchedUrls`: (1) when such
an entry of priority ≥ p exists, a priority-p submission leaves the
scheduler state unchanged — nothing is enqueued and nothing dispatched;
(2) an execution dispatched for a url served within the previous 60
seconds does not re-trigger its fetch work; (3) while a url has only a
pending queue entry (no served entry), a later submission overwrites the
queue entry regardless of priority, so the queue entry for that url
afterwards carries the latest submission's priority — not the highest. -/
theorem submit_dedup_served_only :
    ∀ (maxConc url now : Nat) (trig : Trigger) (p : Int) (s : SchedState),
      (∀ meta : PrefetchMeta, mapGet s.prefetchedUrls url = some meta → p ≤ meta.priority →
        processLink maxConc url trig p true now s = s)
      ∧ (∀ (items : List (Nat × QItem)) (tok : ExecToken),
          tok ∈ (dispatchLoop maxConc now items s).dispatchLog →
          tok ∉ s.dispatchLog →
          ∀ meta : PrefetchMeta, mapGet s.prefetchedUrls tok.url = some meta →
            (now : Int) - (meta.timestamp : Int) < 60000 →
            tok.fetchTriggered = false)
      ∧ ((s.prefetchQueue.map Prod.fst).Nodup →
          mapGet s.prefetchedUrls url = none →
          ∀ item : QItem,
            mapGet (processLink maxConc url trig p true now s).prefetchQueue url = some item →
            item.priority = p) := by
  intro maxConc url now trig p s
  refine ⟨?_, ?_, ?_⟩
  · intro meta hmeta hple
    simp [processLink, hmeta, hple]
  · intro items tok htok hnot meta hmeta hlt
    rcases dispatchLoop_log_new maxConc now items s tok htok with hin | hfa
    · exact absurd hin hnot
    · rw [hfa, fetchAllowed, hmeta]
      simp [hlt]
  · intro hnd hnone item hget
    simp only [processLink, hnone, Bool.not_true, Bool.false_eq_true, if_false] at hget
    simp only [processQueue] at hget
    split at hget
    · have hself := mapGet_mapSet_self s.prefetchQueue url (⟨url, trig, p, now⟩ : QItem)
      have : item = (⟨url, trig, p, now⟩ : QItem) := by
        have hq : mapGet (mapSet s.prefetchQueue url (⟨url, trig, p, now⟩ : QItem)) url
            = some item := hget
        rw [hself] at hq
        exact (Option.some.inj hq).symm
      rw [this]
    · have hnd' : ((mapSet s.prefetchQueue url (⟨url, trig, p, now⟩ : QItem)).map Prod.fst).Nodup :=
        mapSet_keys_nodup url _ hnd
      have hq := dispatchLoop_queue_get maxConc now _ _ url item hnd' hget
      have hself := mapGet_mapSet_self s.prefetchQueue url (⟨url, trig, p, now⟩ : QItem)
      rw [hself] at hq
      have : item = (⟨url, trig, p, now⟩ : QItem) := (Option.some.inj hq).symm
      rw [this]

/-- Witness for the amended C3 at concrete inputs: a priority-5
submission against a served priority-7 entry is a no-op; a dispatch 100ms
after the url was served carries `fetchTriggered = false`; and a
priority-5 submission for a merely pending url leaves priority 5 in the
queue. -/
theorem submit_dedup_served_only_witness :
    processLink 3 10 Trigger.click 5 true 600 ⟨[], [(10, ⟨500, Trigger.click, 7⟩)], 0, [], 0, []⟩
        = ⟨[], [(10, ⟨500, Trigger.click, 7⟩)], 0, [], 0, []⟩
    ∧ (⟨0, 10, Trigger.click, 9, false⟩ : ExecToken).fetchTriggered = false
    ∧ (⟨10, Trigger.click, 5, 0⟩ : QItem).priority = 5 :=
  ⟨(submit_dedup_served_only 3 10 600 Trigger.click 5
      ⟨[], [(10, ⟨500, Trigger.click, 7⟩)], 0, [], 0, []⟩).1
      ⟨500, Trigger.click, 7⟩ (by decide) (by decide),
   (submit_dedup_served_only 3 10 600 Trigger.click 9
      ⟨[], [(10, ⟨500, Trigger.click, 7⟩)], 0, [], 0, []⟩).2.1
      [(10, ⟨10, Trigger.click, 9, 600⟩)] ⟨0, 10, Trigger.click, 9, false⟩
      (by decide) (by decide) ⟨500, Trigger.click, 7⟩ (by decide) (by decide),
   (submit_dedup_served_only 3 10 0 Trigger.click 5
      ⟨[(10, ⟨10, Trigger.hover, 9, 0⟩)], [], 3, [], 0, []⟩).2.2
      (by decide) (by decide) ⟨10, Trigger.click, 5, 0⟩ (by decide)⟩

end Velocity

namespace Velocity

/-- C7 counterexample: with the promise still pending, the timer firing
resolves the call with the Timeout failure, but the `handleResponse`
listener is NOT removed — the timer callback only rejects.  The claim's
statement that the pending entry *including its response listener* is
removed on expiry is therefore false on the code. -/
theorem swp_timeout_listener_counterexample :
    (swpStep 0 swpInit SWPEvent.timeoutFires).settled
        = some (SWOutcome.rejected SWError.timeout)
    ∧ (swpStep 0 swpInit SWPEvent.timeoutFires).listenerActive = true := by
  decide

/-- C7 (amended): once the call has settled, no later event — duplicate
response, late response, or timer expiry — changes the settlement
(a no-op on the outcome); timer expiry on a pending call settles it with
the Timeout failure and consumes the timer but leaves the response
listener registered exactly as it was; the listener is removed only when
a response whose `messageId` matches arrives. -/
theorem swp_timeout_resolution :
    ∀ (myId : Nat) (s : SWPState) (r : SWOutcome) (ev : SWPEvent),
      (s.settled = some r → (swpStep myId s ev).settled = some r)
      ∧ (s.timeoutActive = true → s.settled = none →
          (swpStep myId s SWPEvent.timeoutFires).settled
              = some (SWOutcome.rejected SWError.timeout)
          ∧ (swpStep myId s SWPEvent.timeoutFires).listenerActive = s.listenerActive)
      ∧ (∀ (mid : Nat) (success : Bool), s.listenerActive = true → mid = myId →
          (swpStep myId s (SWPEvent.message mid success)).listenerActive = false) := by
  intro myId s r ev
  refine ⟨?_, ?_, ?_⟩
  · intro hs
    cases ev with
    | timeoutFires =>
      by_cases h : s.timeoutActive = true <;> simp [swpStep, h, settlePromise, hs]
    | message mid success =>
      by_cases h : (s.listenerActive && (mid == myId)) = true <;>
        simp [swpStep, h, settlePromise, hs]
  · intro ht hn
    simp [swpStep, ht, hn, settlePromise]
  · intro mid success hl hmid
    simp [swpStep, hl, hmid, settlePromise]

/-- Witness for the amended C7 at concrete inputs: a late matching
response does not change an already-rejected settlement; the timer on a
fresh call rejects with Timeout; a matching response removes the
listener. -/
theorem swp_timeout_resolution_witness :
    (swpStep 5 ⟨some (SWOutcome.rejected SWError.timeout), true, false⟩
        (SWPEvent.message 5 true)).settled = some (SWOutcome.rejected SWError.timeout)
    ∧ (swpStep 5 swpInit SWPEvent.timeoutFires).settled
        = some (SWOutcome.rejected SWError.timeout)
    ∧ (swpStep 5 swpInit (SWPEvent.message 5 true)).listenerActive = false :=
  ⟨(swp_timeout_resolution 5 ⟨some (SWOutcome.rejected SWError.timeout), true, false⟩
      (SWOutcome.rejected SWError.timeout) (SWPEvent.message 5 true)).1 (by decide),
   ((swp_timeout_resolution 5 swpInit SWOutcome.resolved SWPEvent.timeoutFires).2.1
      (by decide) (by decide)).1,
   (swp_timeout_resolution 5 swpInit SWOutcome.resolved
      (SWPEvent.message 5 true)).2.2 5 true (by decide) rfl⟩

theorem sanitizeTok_fixed {t t' : HtmlTok} (h : sanitizeTok t = some t') :
    sanitizeTok t' = some t' := by
  cases t with
  | text s =>
    simp only [sanitizeTok] at h
    rw [← Option.some.inj h]
    rfl
  | openTag tag attrs =>
    simp only [sanitizeTok] at h
    by_cases htag : tag ∈ ALLOWED_TAGS
    · rw [if_pos htag] at h
      rw [← Option.some.inj h]
      simp only [sanitizeTok, if_pos htag, List.filter_filter, Bool.and_self]
    · rw [if_neg htag] at h
      exact absurd h (by simp)
  | closeTag tag =>
    simp only [sanitizeTok] at h
    by_cases htag : tag ∈ ALLOWED_TAGS
    · rw [if_pos htag] at h
      rw [← Option.some.inj h]
      simp only [sanitizeTok, if_pos htag]
    · rw [if_neg htag] at h
      exact absurd h (by simp)

/-- C9: the allow-list sanitization path is idempotent — applying the
sanitizer to its own output returns that output unchanged, for every
input document. -/
theorem sanitizeHtml_idempotent :
    ∀ doc : List HtmlTok, sanitizeHtml (sanitizeHtml doc) = sanitizeHtml doc := by
  intro doc
  induction doc with
  | nil => rfl
  | cons t rest ih =>
    cases ht : sanitizeTok t with
    | none => simpa [sanitizeHtml, List.filterMap_cons, ht] using ih
    | some t' =>
      have hfix := sanitizeTok_fixed ht
      simp only [sanitizeHtml] at ih ⊢
      simp [List.filterMap_cons, ht, hfix, ih]

/-- C8: `calculatePriority` is a pure function of the trigger, the
element context signals and the analytics record; it equals the closed
product formula — trigger weight (defaults click=10, touch=7, hover=5,
visible=3), ×2 for the high-priority tag, ×1.5 inside `nav`, ×1.3 inside
the primary-content region, ×(1 + visitCount·0.1) — rounded by
`Math.round`, which lands within 1/2 of the exact value. -/
theorem calculatePriority_closed_formula :
    (weightFor DEFAULT_PRIORITY_WEIGHTS Trigger.click = 10
      ∧ weightFor DEFAULT_PRIORITY_WEIGHTS Trigger.touch = 7
      ∧ weightFor DEFAULT_PRIORITY_WEIGHTS Trigger.hover = 5
      ∧ weightFor DEFAULT_PRIORITY_WEIGHTS Trigger.visible = 3)
    ∧ (∀ (w : PriorityWeights) (link : LinkContext) (trig : Trigger)
          (ana : Option UrlAnalytics),
        calculatePriority w link trig ana
          = jsRound (weightFor w trig
              * (if link.highPriority then 2 else 1)
              * (if link.inNav then 3/2 else 1)
              * (if link.inMainContent then 13/10 else 1)
              * (1 + (((ana.map (fun a => a.visitCount)).getD 0 : Nat) : ℚ) * (1/10))))
    ∧ (∀ q : ℚ, |((jsRound q : ℚ)) - q| ≤ 1/2) := by
  refine ⟨⟨rfl, rfl, rfl, rfl⟩, ?_, ?_⟩
  · intro w link trig ana
    rcases link with ⟨hp, nav, mc⟩
    rcases ana with _ | a <;>
      cases hp <;> cases nav <;> cases mc <;>
        simp [calculatePriority, Option.getD]
  · intro q
    have h1 : ((jsRound q : ℚ)) ≤ q + 1/2 := by
      simpa [jsRound] using Int.floor_le (q + 1/2)
    have h2 : q + 1/2 < ((jsRound q : ℚ)) + 1 := by
      simp only [jsRound]
      exact Int.lt_floor_add_one (q + 1/2)
    rw [abs_le]
    constructor <;> linarith

end Velocity

namespace VelocityWorker

/-- C4 (code bug): `manageCacheSize` derives its capacity key as
`cacheName.split('-').pop().toUpperCase()`, which for every configured
cache name yields the version segment (`"V1"`), never the partition
name, so the `MAX_CACHE_SIZES` lookup always misses and the `|| 50`
default applies.  Concretely, the API partition is configured with
capacity 30 (`MAX_CACHE_SIZES "API" = some 30`), yet its effective
capacity is 50: a `safeCachePut` into `velocity-api-v1` already holding
30 entries (its configured capacity) evicts nothing and grows the
partition to 31 entries — above the `30 - 5 + 1 = 26` bound the claim
requires. -/
theorem api_partition_eviction_lookup_bug :
    effectiveMaxSize "velocity-api-v1" = 50
    ∧ MAX_CACHE_SIZES "API" = some 30
    ∧ (CACHE_NAMES.map effectiveMaxSize) = [50, 50, 50, 50]
    ∧ (safeCachePutEntries 0 ((List.range 30).map (fun i => ⟨i, 0⟩)) "velocity-api-v1"
        (fun _ => none) 1000 30).length = 31
    ∧ ¬ ((safeCachePutEntries 0 ((List.range 30).map (fun i => ⟨i, 0⟩)) "velocity-api-v1"
        (fun _ => none) 1000 30).length ≤ 30 - 5 + 1) := by
  refine ⟨by decide, rfl, by decide, by decide, by decide⟩

end VelocityWorker

namespace VelocityWorker

/-- C5: in the network-first strategy, whenever the fetch fails (any
error, including the abort raised on timeout) or returns a non-200
status and a cache entry exists, the returned response is exactly that
cache entry, coming from the cache branch — never the synthesized
offline response; and the offline response is synthesized only when the
fetch failed and no cache entry exists. -/
theorem networkFirst_cached_fallback :
    ∀ (req : Request) (isAPI : Bool) (fetchResult : Except FetchError Response)
      (cached : Option Response),
      (∀ c : Response, cached = some c →
        (∀ e : FetchError, fetchResult = Except.error e →
          (networkFirstStrategy req isAPI fetchResult cached).response = c
          ∧ (networkFirstStrategy req isAPI fetchResult cached).origin = Origin.cache)
        ∧ (∀ r : Response, fetchResult = Except.ok r → r.status ≠ 200 →
          (networkFirstStrategy req isAPI fetchResult cached).response = c
          ∧ (networkFirstStrategy req isAPI fetchResult cached).origin = Origin.cache))
      ∧ ((networkFirstStrategy req isAPI fetchResult cached).origin = Origin.synthesized →
          (networkFirstStrategy req isAPI fetchResult cached).response
              = createOfflineResponse req
          ∧ cached = none ∧ ∃ e, fetchResult = Except.error e) := by
  intro req isAPI fr cached
  constructor
  · intro c hc
    subst hc
    constructor
    · intro e he
      subst he
      exact ⟨rfl, rfl⟩
    · intro r hr hst
      subst hr
      have hb : (r.status == 200) = false := by simpa using hst
      simp [networkFirstStrategy, hb]
  · intro hsyn
    cases fr with
    | ok r =>
      exfalso
      by_cases hb : (r.status == 200) = true
      · simp [networkFirstStrategy, hb] at hsyn
      · rw [Bool.not_eq_true] at hb
        cases cached with
        | some c => simp [networkFirstStrategy, hb] at hsyn
        | none => simp [networkFirstStrategy, hb] at hsyn
    | error e =>
      cases cached with
      | some c => simp [networkFirstStrategy] at hsyn
      | none => exact ⟨rfl, rfl, ⟨e, rfl⟩⟩

/-- Witness for C5 at concrete inputs: a timed-out fetch with a cache
hit returns the hit from the cache branch, and the offline branch is
entered only from a failed fetch with an empty cache. -/
theorem networkFirst_cached_fallback_witness :
    (networkFirstStrategy ⟨"text/html", "/page"⟩ false
        (Except.error FetchError.abortError)
        (some ⟨200, [], RespBody.payload 7⟩)).response = ⟨200, [], RespBody.payload 7⟩
    ∧ (networkFirstStrategy ⟨"text/html", "/page"⟩ false
        (Except.error FetchError.abortError)
        (some ⟨200, [], RespBody.payload 7⟩)).origin = Origin.cache
    ∧ (networkFirstStrategy ⟨"", "/x"⟩ false (Except.error FetchError.networkError)
        none).response = createOfflineResponse ⟨"", "/x"⟩ :=
  ⟨((networkFirst_cached_fallback ⟨"text/html", "/page"⟩ false
      (Except.error FetchError.abortError) (some ⟨200, [], RespBody.payload 7⟩)).1
      ⟨200, [], RespBody.payload 7⟩ rfl).1 FetchError.abortError rfl |>.1,
   ((networkFirst_cached_fallback ⟨"text/html", "/page"⟩ false
      (Except.error FetchError.abortError) (some ⟨200, [], RespBody.payload 7⟩)).1
      ⟨200, [], RespBody.payload 7⟩ rfl).1 FetchError.abortError rfl |>.2,
   ((networkFirst_cached_fallback ⟨"", "/x"⟩ false (Except.error FetchError.networkError)
      none).2 (by decide)).1⟩

/-- C6: fetch attempts are bounded by a timeout whose expiry surfaces as
the abort condition, a distinct constructor from other network errors;
a successful or aborted first attempt runs exactly once with no backoff,
while a non-abort failure triggers exactly one retry after a fixed
1000ms backoff, whose outcome — success or failure of either kind — is
then surfaced without further attempts. -/
theorem fetchWithTimeout_retry_policy :
    ∀ attempt : Nat → Except FetchError Response,
      (FetchError.abortError ≠ FetchError.networkError)
      ∧ (∀ r : Response, attempt 0 = Except.ok r →
          fetchWithTimeoutDefault attempt = ⟨Except.ok r, 1, []⟩)
      ∧ (attempt 0 = Except.error FetchError.abortError →
          fetchWithTimeoutDefault attempt = ⟨Except.error FetchError.abortError, 1, []⟩)
      ∧ (attempt 0 = Except.error FetchError.networkError →
          (fetchWithTimeoutDefault attempt).attemptsMade = 2
          ∧ (fetchWithTimeoutDefault attempt).backoffsMs = [1000]
          ∧ (fetchWithTimeoutDefault attempt).result = attempt 1) := by
  intro attempt
  refine ⟨by simp, ?_, ?_, ?_⟩
  · intro r h
    simp [fetchWithTimeoutDefault, fetchWithTimeout, h]
  · intro h
    simp [fetchWithTimeoutDefault, fetchWithTimeout, h]
  · intro h
    simp only [fetchWithTimeoutDefault, fetchWithTimeout, h]
    cases h1 : attempt 1 with
    | ok r => simp [fetchWithTimeout, h1]
    | error e => cases e <;> simp [fetchWithTimeout, h1]

/-- Witness for C6 at concrete inputs: an abort on the first attempt is
surfaced with a single attempt and no backoff; a network error on the
first attempt leads to exactly two attempts with a single 1000ms
backoff. -/
theorem fetchWithTimeout_retry_policy_witness :
    fetchWithTimeoutDefault (fun _ => Except.error FetchError.abortError)
        = ⟨Except.error FetchError.abortError, 1, []⟩
    ∧ (fetchWithTimeoutDefault (fun i =>
        if i == 0 then Except.error FetchError.networkError
        else Except.ok ⟨200, [], RespBody.payload 0⟩)).attemptsMade = 2
    ∧ (fetchWithTimeoutDefault (fun i =>
        if i == 0 then Except.error FetchError.networkError
        else Except.ok ⟨200, [], RespBody.payload 0⟩)).backoffsMs = [1000] :=
  ⟨(fetchWithTimeout_retry_policy (fun _ => Except.error FetchError.abortError)).2.2.1 rfl,
   ((fetchWithTimeout_retry_policy (fun i =>
      if i == 0 then Except.error FetchError.networkError
      else Except.ok ⟨200, [], RespBody.payload 0⟩)).2.2.2 rfl).1,
   ((fetchWithTimeout_retry_policy (fun i =>
      if i == 0 then Except.error FetchError.networkError
      else Except.ok ⟨200, [], RespBody.payload 0⟩)).2.2.2 rfl).2.1⟩

end VelocityWorker

namespace VelocityWorker

theorem createOfflineResponse_status (req : Request) :
    (createOfflineResponse req).status = 503 := by
  simp only [createOfflineResponse]
  split_ifs <;> rfl

/-- C10: every synthesized offline response has HTTP status 503 and a
`Cache-Control: no-cache` header; its body format follows the request —
HTML when the `Accept` header includes `text/html`, the JSON error
object when it includes `application/json` or the path starts with
`/api/`, plain text otherwise.  Every response any strategy (or
`executePrefetch`) hands to `safeCachePut` has status 200, header
stamping preserves the status, and a status-200 response can never be an
offline response (status 503) — so an offline response is never stored
in any cache partition. -/
theorem offline_response_not_cacheable :
    ∀ (req req2 : Request) (isAPI cachedFresh : Bool)
      (fetchResult bgFetch : Except FetchError Response)
      (cached : Option Response) (now : Nat),
      (createOfflineResponse req).status = 503
      ∧ getHeader (createOfflineResponse req).headers "Cache-Control" = some "no-cache"
      ∧ (strIncludes req.accept "text/html" = true →
          (createOfflineResponse req).body = RespBody.offlineHtml)
      ∧ (strIncludes req.accept "text/html" = false →
          (strIncludes req.accept "application/json"
            || strStartsWith req.pathname "/api/") = true →
          (createOfflineResponse req).body = RespBody.offlineJson)
      ∧ (strIncludes req.accept "text/html" = false →
          (strIncludes req.accept "application/json"
            || strStartsWith req.pathname "/api/") = false →
          (createOfflineResponse req).body = RespBody.offlineText)
      ∧ (∀ w ∈ (networkFirstStrategy req isAPI fetchResult cached).writes,
          w.2.status = 200)
      ∧ (∀ w ∈ (cacheFirstStrategy req cached now fetchResult bgFetch).writes,
          w.2.status = 200)
      ∧ (∀ w ∈ (staleWhileRevalidateStrategy req cached fetchResult).writes,
          w.2.status = 200)
      ∧ (∀ w ∈ executePrefetchWrites req cachedFresh fetchResult, w.2.status = 200)
      ∧ (∀ resp : Response, (enhanceResponse resp now).status = resp.status)
      ∧ (∀ resp : Response, resp.status = 200 →
          resp ≠ createOfflineResponse req2
          ∧ enhanceResponse resp now ≠ createOfflineResponse req2) := by
  intro req req2 isAPI cachedFresh fr bg cached now
  refine ⟨createOfflineResponse_status req, ?_, ?_, ?_, ?_, ?_, ?_, ?_, ?_, ?_, ?_⟩
  · simp only [createOfflineResponse]
    split_ifs <;> decide
  · intro h1
    simp [createOfflineResponse, h1]
  · intro h1 h2
    simp [createOfflineResponse, h1, h2]
  · intro h1 h2
    simp [createOfflineResponse, h1, h2]
  · intro w hw
    cases fr with
    | ok r =>
      by_cases hb : (r.status == 200) = true
      · by_cases hs : shouldCacheResponse req r isAPI = true
        · simp only [networkFirstStrategy, hb, if_true, hs] at hw
          rcases (by simpa using hw : w = (req, r)) with rfl
          simpa using hb
        · rw [Bool.not_eq_true] at hs
          simp [networkFirstStrategy, hb, hs] at hw
      · rw [Bool.not_eq_true] at hb
        cases cached <;> simp [networkFirstStrategy, hb] at hw
    | error e =>
      cases cached <;> simp [networkFirstStrategy] at hw
  · intro w hw
    cases cached with
    | some c =>
      by_cases hstale : isResourceStale c now 3600000 = true
      · cases bg with
        | ok r =>
          by_cases hb : (r.status == 200) = true
          · simp only [cacheFirstStrategy, hstale, if_true, hb] at hw
            rcases (by simpa using hw : w = (req, r)) with rfl
            simpa using hb
          · rw [Bool.not_eq_true] at hb
            simp [cacheFirstStrategy, hstale, hb] at hw
        | error e => simp [cacheFirstStrategy, hstale] at hw
      · rw [Bool.not_eq_true] at hstale
        simp [cacheFirstStrategy, hstale] at hw
    | none =>
      cases fr with
      | ok r =>
        by_cases hb : (r.status == 200) = true
        · simp only [cacheFirstStrategy, hb, if_true] at hw
          rcases (by simpa using hw : w = (req, r)) with rfl
          simpa using hb
        · rw [Bool.not_eq_true] at hb
          simp [cacheFirstStrategy, hb] at hw
      | error e => simp [cacheFirstStrategy] at hw
  · intro w hw
    have hw' : w ∈ (match fr with
        | Except.ok r => if r.status == 200 then [(req, r)] else []
        | Except.error _ => ([] : List (Request × Response))) := by
      cases cached with
      | some c => simpa [staleWhileRevalidateStrategy] using hw
      | none =>
        cases fr with
        | ok r => simpa [staleWhileRevalidateStrategy] using hw
        | error e =>
          simp [staleWhileRevalidateStrategy] at hw
    cases fr with
    | ok r =>
      by_cases hb : (r.status == 200) = true
      · simp only [hb, if_true] at hw'
        rcases (by simpa using hw' : w = (req, r)) with rfl
        simpa using hb
      · rw [Bool.not_eq_true] at hb
        simp [hb] at hw'
    | error e => simp at hw'
  · intro w hw
    by_cases hcf : cachedFresh = true
    · simp [executePrefetchWrites, hcf] at hw
    · rw [Bool.not_eq_true] at hcf
      cases fr with
      | ok r =>
        by_cases hb : (r.status == 200) = true
        · simp only [executePrefetchWrites, hcf, Bool.false_eq_true, if_false, hb,
            if_true] at hw
          rcases (by simpa using hw : w = (req, r)) with rfl
          simpa using hb
        · rw [Bool.not_eq_true] at hb
          simp [executePrefetchWrites, hcf, hb] at hw
      | error e => simp [executePrefetchWrites, hcf] at hw
  · intro resp
    rfl
  · intro resp h200
    constructor
    · intro heq
      have := congrArg Response.status heq
      rw [h200, createOfflineResponse_status req2] at this
      exact absurd this (by decide)
    · intro heq
      have := congrArg Response.status heq
      have henh : (enhanceResponse resp now).status = resp.status := rfl
      rw [henh, h200, createOfflineResponse_status req2] at this
      exact absurd this (by decide)

/-- Witness for C10 at concrete inputs: an offline response for an HTML
request has status 503 with `no-cache`, and a successful strategy write
carries status 200. -/
theorem offline_response_not_cacheable_witness :
    (createOfflineResponse ⟨"text/html", "/page"⟩).status = 503
    ∧ getHeader (createOfflineResponse ⟨"text/html", "/page"⟩).headers "Cache-Control"
        = some "no-cache"
    ∧ (createOfflineResponse ⟨"text/html", "/page"⟩).body = RespBody.offlineHtml
    ∧ ((⟨"text/html", "/page"⟩, (⟨200, [], RespBody.payload 1⟩ : Response)) :
        Request × Response).2.status = 200
    ∧ (⟨200, [], RespBody.payload 1⟩ : Response)
        ≠ createOfflineResponse ⟨"", "/api/x"⟩ :=
  ⟨(offline_response_not_cacheable ⟨"text/html", "/page"⟩ ⟨"", "/api/x"⟩ false false
      (Except.ok ⟨200, [], RespBody.payload 1⟩) (Except.error FetchError.networkError)
      none 0).1,
   (offline_response_not_cacheable ⟨"text/html", "/page"⟩ ⟨"", "/api/x"⟩ false false
      (Except.ok ⟨200, [], RespBody.payload 1⟩) (Except.error FetchError.networkError)
      none 0).2.1,
   (offline_response_not_cacheable ⟨"text/html", "/page"⟩ ⟨"", "/api/x"⟩ false false
      (Except.ok ⟨200, [], RespBody.payload 1⟩) (Except.error FetchError.networkError)
      none 0).2.2.1 (by decide),
   ((offline_response_not_cacheable ⟨"text/html", "/page"⟩ ⟨"", "/api/x"⟩ false false
      (Except.ok ⟨200, [], RespBody.payload 1⟩) (Except.error FetchError.networkError)
      none 0).2.2.2.2.2.1 (⟨"text/html", "/page"⟩, ⟨200, [], RespBody.payload 1⟩)
      (by decide)),
   ((offline_response_not_cacheable ⟨"text/html", "/page"⟩ ⟨"", "/api/x"⟩ false false
      (Except.ok ⟨200, [], RespBody.payload 1⟩) (Except.error FetchError.networkError)
      none 0).2.2.2.2.2.2.2.2.2.2 ⟨200, [], RespBody.payload 1⟩ rfl).1⟩

end VelocityWorker
